import Mathlib

/-!
Verification of the dataset-audit pipeline (`HT_1/Analyzer/Analyzer.py`):
a CKAN catalog auditor with a retrying HTTP layer, a byte-bounded
downloader, streaming row counters for CSV / XLSX / ZIP resources, and a
per-dataset fallback-chain aggregator.

The embedding is shallow: network effects (HTTP responses, the datastore
endpoint, downloaded archive contents) are passed in explicitly as data,
bytes are `Nat` (newline = 10), and Python's `None` results become
`Option`.
-/

namespace Audit

/-! ## Data model (dataclasses `ResourceInfo`, `DatasetInfo`,
`DatasetMetrics`, `LargeResource`) -/

/-- The `ResourceInfo` dataclass: id, url, datastore_active, format.
`id`/`url`/`format` come from `res.get(...)` and may be absent. -/
structure ResourceInfo where
  id : Option String
  url : Option String
  datastore_active : Bool
  format : Option String
deriving DecidableEq, Repr

/-- The `DatasetInfo` dataclass. -/
structure DatasetInfo where
  id : String
  title : String
  resources : List ResourceInfo
deriving DecidableEq, Repr

/-- The `DatasetMetrics` dataclass emitted per dataset. -/
structure DatasetMetrics where
  dataset_id : String
  dataset_title : String
  n_resources : Nat
  rows_total : Int
deriving DecidableEq, Repr

/-- The `LargeResource` dataclass routed to the large-resource report. -/
structure LargeResource where
  dataset_id : String
  dataset_title : String
  resource_id : Option String
  url : Option String
  format : Option String
  content_length : Option Nat
  reason : String
deriving DecidableEq, Repr

/-- Python truthiness of an optional string (`None` and `""` are falsy). -/
def optStrTruthy : Option String → Bool
  | none => false
  | some s => !s.data.isEmpty

/-- Python `str.lower()` on the character list of a string (URLs and format
tags here are ASCII). -/
def strLower (s : List Char) : List Char := s.map Char.toLower

/-- Python `str.endswith(suffix)` on character lists. -/
def strEndsWith (s suffix : List Char) : Bool := suffix.isSuffixOf s

/-- Python `u.split("?", 1)[0]`: the characters before the first `?`. -/
def beforeQuery (s : List Char) : List Char := s.takeWhile (fun c => c != '?')

/-! ## Byte-level helpers shared by the counters.
A body is a list of bytes; a stream is a list of chunks. -/

/-- Python `chunk.count(b"\n")`: number of newline bytes. -/
def newlineCount (bs : List Nat) : Nat := bs.countP (fun b => b = 10)

/-- Python `chunk.endswith(b"\n")`. -/
def endsWithNl (bs : List Nat) : Bool :=
  match bs.getLast? with
  | some 10 => true
  | _ => false

/-- The `HttpUtil.stream_bytes` generator yields only the truthy (non-empty) chunks of
the response body. -/
def streamBytesOf (raw : List (List Nat)) : List (List Nat) :=
  raw.filter (fun c => !c.isEmpty)

/-! ## `CKANClient._get_json`: bounded retries with backoff on exceptions -/

/-- One attempt of `requests.get` inside `_get_json`: 200-with-JSON,
a non-200 status, or an exception (network error or JSON decode error). -/
inductive AttemptOutcome where
  | ok (payload : Nat)
  | badStatus
  | exn
deriving DecidableEq, Repr

/-- Whether an attempt is the successful `status_code == 200` case. -/
def AttemptOutcome.isOk : AttemptOutcome → Bool
  | .ok _ => true
  | _ => false

/-- The retry loop of `_get_json`: `i` is the attempt index, the second
argument the remaining attempts, then the current backoff and the total
time slept so far.  On an exception it sleeps `backoff` and doubles it;
on a non-200 status it retries at once without sleeping. -/
def getJsonGo (attempts : Nat → AttemptOutcome) : Nat → Nat → ℚ → ℚ → Option Nat × ℚ
  | _, 0, _, slept => (none, slept)
  | i, n + 1, backoff, slept =>
    match attempts i with
    | .ok p => (some p, slept)
    | .badStatus => getJsonGo attempts (i + 1) n backoff slept
    | .exn => getJsonGo attempts (i + 1) n (backoff * 2) (slept + backoff)

/-- The call `CKANClient._get_json`: up to `retries` attempts, backoff starting at
`0.5`; returns the payload on the first 200 response, `none` after
exhausting all attempts, together with the total time slept. -/
def get_json (retries : Nat) (attempts : Nat → AttemptOutcome) : Option Nat × ℚ :=
  getJsonGo attempts 0 retries (1 / 2) 0

/-- Default `retries` of `CKANClient` (constructor default `retries: int = 3`). -/
def defaultRetries : Nat := 3

/-- Number of exception outcomes among attempts `i, i+1, ..., i+n-1`. -/
def exnCountFrom (attempts : Nat → AttemptOutcome) : Nat → Nat → Nat
  | _, 0 => 0
  | i, n + 1 => (if attempts i = .exn then 1 else 0) + exnCountFrom attempts (i + 1) n

/-! ## `HttpUtil.download_to_tempfile`: the bounded downloader -/

/-- The chunk loop of `download_to_tempfile`: skips falsy chunks, adds
each chunk's length to the running total, aborts (deleting the partial
file) as soon as the total exceeds `maxBytes`, and otherwise appends the
chunk to the temporary file `acc`. -/
def downloadLoop (maxBytes : Nat) : List (List Nat) → Nat → List Nat → Option (List Nat)
  | [], _, acc => some acc
  | c :: rest, total, acc =>
    if c.isEmpty then downloadLoop maxBytes rest total acc
    else
      let total' := total + c.length
      if maxBytes < total' then none
      else downloadLoop maxBytes rest total' (acc ++ c)

/-- The `HttpUtil.download_to_tempfile` body: `resp = none` models a request
exception or a `raise_for_status` failure; on success the result is the
byte content of the temporary file. -/
def download_to_tempfile (maxBytes : Nat) (resp : Option (List (List Nat))) :
    Option (List Nat) :=
  match resp with
  | none => none
  | some chunks => downloadLoop maxBytes chunks 0 []

/-! ## `CsvRowCounter` -/

/-- The recognizer `CsvRowCounter.is_csv_url` (on the `str` the auditor passes): falsy
URLs are rejected, otherwise the lowercased URL must end in `.csv`
(no query-suffix stripping). -/
def is_csv_url (url : String) : Bool :=
  !url.data.isEmpty && strEndsWith (strLower url.data) ".csv".data

/-- Default `max_bytes` of `CsvRowCounter`. -/
def csvDefaultMaxBytes : Nat := 15000000

/-- HTTP requests `CsvRowCounter.count_rows` can perform. -/
inductive CsvReq where
  | headProbe
  | getStream
deriving DecidableEq, Repr

/-- The streaming loop of `CsvRowCounter.count_rows`: accumulates
`bytes_read`, `lines`, `tail_newline` over the chunks, returning `none`
as soon as `bytes_read` exceeds `maxBytes`. -/
def csvLoop (maxBytes : Nat) : List (List Nat) → Nat → Nat → Bool → Option (Nat × Nat × Bool)
  | [], br, ln, tl => some (br, ln, tl)
  | c :: rest, br, ln, _tl =>
    let br' := br + c.length
    let ln' := ln + newlineCount c
    let tl' := endsWithNl c
    if maxBytes < br' then none
    else csvLoop maxBytes rest br' ln' tl'

/-- The counter `CsvRowCounter.count_rows`.  `headCl` is the result of
`head_content_length`; `stream = none` models an exception raised while
streaming the body, `some raw` the response's chunk sequence.  Returns
the row count (or `none`) together with the HTTP requests performed. -/
def csvCountRows (maxBytes : Nat) (url : String) (headCl : Option Nat)
    (stream : Option (List (List Nat))) : Option Nat × List CsvReq :=
  if !(is_csv_url url) then (none, [])
  else
    let gated : Bool :=
      match headCl with
      | some cl => decide (maxBytes < cl)
      | none => false
    if gated then (none, [.headProbe])
    else
      match stream with
      | none => (none, [.headProbe, .getStream])
      | some raw =>
        match csvLoop maxBytes (streamBytesOf raw) 0 0 true with
        | none => (none, [.headProbe, .getStream])
        | some (br, ln, tl) =>
          (some (if 0 < br ∧ tl = false then ln + 1 else ln), [.headProbe, .getStream])

/-! ## `XlsxRowCounter` / `ZipRowCounter` URL recognizers -/

/-- The recognizer `XlsxRowCounter.is_xlsx_url`: a truthy format tag of `xlsx`/`excel`
wins; otherwise the lowercased URL, with any query suffix stripped, must
end in `.xlsx`. -/
def is_xlsx_url (url : String) (fmt : Option String) : Bool :=
  if optStrTruthy fmt &&
      (strLower (fmt.getD "").data == "xlsx".data ||
       strLower (fmt.getD "").data == "excel".data) then true
  else if url.data.isEmpty then false
  else strEndsWith (beforeQuery (strLower url.data)) ".xlsx".data

/-- The recognizer `ZipRowCounter.is_zip_url`: a truthy format tag of `zip` wins;
otherwise the lowercased URL, with any query suffix stripped, must end
in `.zip`. -/
def is_zip_url (url : String) (fmt : Option String) : Bool :=
  if optStrTruthy fmt && strLower (fmt.getD "").data == "zip".data then true
  else if url.data.isEmpty then false
  else strEndsWith (beforeQuery (strLower url.data)) ".zip".data

/-! ## `ZipRowCounter` entry counting -/

/-- One archive member: its name and, when `zf.open` succeeds, the
sequence of non-empty `read(chunk_size)` results of its decompressed
stream (`content = none` models an exception while opening/reading). -/
structure ZipEntry where
  name : String
  content : Option (List (List Nat))
deriving DecidableEq, Repr

/-- The per-entry loop of `ZipRowCounter._count_csv_stream`: reads
chunks until an empty read, aborting with `none` as soon as the
decompressed total exceeds the per-entry cap. -/
def zipStreamLoop (perMax : Nat) : List (List Nat) → Nat → Nat → Bool → Option (Nat × Nat × Bool)
  | [], total, ln, tl => some (total, ln, tl)
  | c :: rest, total, ln, tl =>
    if c.isEmpty then some (total, ln, tl)
    else
      let total' := total + c.length
      if perMax < total' then none
      else zipStreamLoop perMax rest total' (ln + newlineCount c) (endsWithNl c)

/-- The per-entry `ZipRowCounter._count_csv_stream`. -/
def countCsvStream (perMax : Nat) (e : ZipEntry) : Option Nat :=
  match e.content with
  | none => none
  | some chunks =>
    match zipStreamLoop perMax chunks 0 0 true with
    | none => none
    | some (total, ln, tl) =>
      if total = 0 then some 0
      else some (if tl = false then ln + 1 else ln)

/-- The counter `ZipRowCounter.count_rows`.  `download = none` models a failed (or
over-cap) download or an unreadable archive; `some entries` the members
of the downloaded zip file. -/
def zipCountRows (perMax : Nat) (url : String) (fmt : Option String)
    (download : Option (List ZipEntry)) : Option Nat :=
  if !(is_zip_url url fmt) then none
  else
    match download with
    | none => none
    | some entries =>
      let names := entries.filter (fun e => strEndsWith (strLower e.name.data) ".csv".data)
      if names.isEmpty then none
      else
        let rows := names.foldl
          (fun acc e =>
            match countCsvStream perMax e with
            | some c => if 0 < c then acc + c else acc
            | none => acc) 0
        if 0 < rows then some rows else none

/-! ## `DatasetAuditor` -/

/-- The auditor's configuration: large-resource threshold, which of the
optional counters (`csv_counter`, `xlsx_counter`, `zip_counter`) are
configured, and whether a `large_reporter` is attached. -/
structure AuditConfig where
  largeThreshold : Nat
  hasCsv : Bool
  hasXlsx : Bool
  hasZip : Bool
  hasLargeReporter : Bool
deriving DecidableEq, Repr

/-- Default `large_threshold` of `DatasetAuditor` (512 MiB). -/
def defaultLargeThreshold : Nat := 536870912

/-- The external world as seen by one `audit_dataset` call:
`datastore` is `DataStoreClient.get_rows_cols` (rows, cols), `head` is
`HttpUtil.head_content_length`, and `csv`/`xlsx`/`zip` are the
per-counter `count_rows` outcomes for a given URL (and format tag). -/
structure AuditEnv where
  datastore : String → Option (Int × Nat)
  head : String → Option Nat
  csv : String → Option Int
  xlsx : String → Option String → Option Int
  zip : String → Option String → Option Int

/-- Observable calls made by the auditor while handling one resource. -/
inductive AuditAction where
  | queryDatastore (id : String)
  | headReq (url : String)
  | tryCsv (url : String)
  | tryXlsx (url : String)
  | tryZip (url : String)
deriving DecidableEq, Repr

/-- Python `isinstance(c, int) and c > 0` on a counter outcome. -/
def posInt : Option Int → Bool
  | some k => decide (0 < k)
  | none => false

/-- The `if not used and self.zip_counter:` stage of the cascade,
reached only when no earlier counter produced a positive count. -/
def zipStage (cfg : AuditConfig) (env : AuditEnv) (u : String) (fmt : Option String) :
    List Int × List AuditAction :=
  if cfg.hasZip then
    match env.zip u fmt with
    | some z => if 0 < z then ([z], [.tryZip u]) else ([], [.tryZip u])
    | none => ([], [.tryZip u])
  else ([], [])

/-- The `if not used and self.xlsx_counter:` stage of the cascade,
falling through to the zip stage when not positive. -/
def xlsxStage (cfg : AuditConfig) (env : AuditEnv) (u : String) (fmt : Option String) :
    List Int × List AuditAction :=
  if cfg.hasXlsx then
    match env.xlsx u fmt with
    | some x =>
      if 0 < x then ([x], [.tryXlsx u])
      else ((zipStage cfg env u fmt).1, .tryXlsx u :: (zipStage cfg env u fmt).2)
    | none => ((zipStage cfg env u fmt).1, .tryXlsx u :: (zipStage cfg env u fmt).2)
  else zipStage cfg env u fmt

/-- The `used`-guarded counter cascade of `audit_dataset`
(csv → xlsx → zip): each configured counter is attempted until one
returns a strictly positive count, which is appended to `counts`.
Returns the contributions and the counters attempted. -/
def fileFallback (cfg : AuditConfig) (env : AuditEnv) (u : String) (fmt : Option String) :
    List Int × List AuditAction :=
  if cfg.hasCsv then
    match env.csv u with
    | some c =>
      if 0 < c then ([c], [.tryCsv u])
      else ((xlsxStage cfg env u fmt).1, .tryCsv u :: (xlsxStage cfg env u fmt).2)
    | none => ((xlsxStage cfg env u fmt).1, .tryCsv u :: (xlsxStage cfg env u fmt).2)
  else xlsxStage cfg env u fmt

/-- The body of the per-resource loop in `DatasetAuditor.audit_dataset`:
datastore branch, large-resource gate, then the counter cascade.
Returns (contributed counts, large-resource records, actions). -/
def auditResource (cfg : AuditConfig) (env : AuditEnv) (ds : DatasetInfo)
    (res : ResourceInfo) : List Int × List LargeResource × List AuditAction :=
  if res.datastore_active && optStrTruthy res.id then
    let rid := res.id.getD ""
    match env.datastore rid with
    | some rc => ([rc.1], [], [.queryDatastore rid])
    | none => ([], [], [.queryDatastore rid])
  else if optStrTruthy res.url then
    let u := res.url.getD ""
    let gated : Bool :=
      match env.head u with
      | some cl => decide (cfg.largeThreshold ≤ cl)
      | none => false
    if gated then
      (([], ((if cfg.hasLargeReporter then
        [{ dataset_id := ds.id, dataset_title := ds.title, resource_id := res.id,
           url := res.url, format := res.format,
           content_length := env.head u,
           reason := "content-length>=threshold" }] else []), [.headReq u])))
    else
      let fb := fileFallback cfg env u res.format
      (fb.1, [], .headReq u :: fb.2)
  else ([], [], [])

/-- The per-dataset accumulation of `audit_dataset`'s resource loop:
concatenated contributions, large-resource records and actions over the
dataset's resources, in order. -/
def auditParts (cfg : AuditConfig) (env : AuditEnv) (ds : DatasetInfo) :
    List Int × List LargeResource × List AuditAction :=
  ds.resources.foldl
    (fun acc r =>
      let p := auditResource cfg env ds r
      (acc.1 ++ p.1, acc.2.1 ++ p.2.1, acc.2.2 ++ p.2.2))
    ([], [], [])

/-- Python `max(counts) if counts else 0`. -/
def pyMax : List Int → Int
  | [] => 0
  | h :: t => t.foldl max h

/-- The orchestrator `DatasetAuditor.audit_dataset`: the emitted `DatasetMetrics`
together with the large-resource records and the action trace. -/
def audit_dataset (cfg : AuditConfig) (env : AuditEnv) (ds : DatasetInfo) :
    DatasetMetrics × List LargeResource × List AuditAction :=
  let p := auditParts cfg env ds
  ({ dataset_id := ds.id, dataset_title := ds.title,
     n_resources := ds.resources.length, rows_total := pyMax p.1 },
   p.2.1, p.2.2)

/-! ## Helper lemmas -/

lemma downloadLoop_length_le (maxBytes : Nat) :
    ∀ (chunks : List (List Nat)) (total : Nat) (acc content : List Nat),
      acc.length = total → total ≤ maxBytes →
      downloadLoop maxBytes chunks total acc = some content →
      content.length ≤ maxBytes := by
  intro chunks
  induction chunks with
  | nil =>
    intro total acc content hlen hle h
    simp only [downloadLoop, Option.some.injEq] at h
    subst h; omega
  | cons c rest ih =>
    intro total acc content hlen hle h
    by_cases hc : c.isEmpty
    · simp only [downloadLoop, hc, if_pos] at h
      exact ih total acc content hlen hle h
    · simp only [downloadLoop, hc, if_neg, Bool.false_eq_true, not_false_iff] at h
      by_cases hover : maxBytes < total + c.length
      · simp [hover] at h
      · rw [if_neg hover] at h
        exact ih (total + c.length) (acc ++ c) content
          (by simp [hlen]) (by omega) h

lemma getJsonGo_all_fail (attempts : Nat → AttemptOutcome) :
    ∀ (n i : Nat) (backoff slept : ℚ),
      (∀ j, i ≤ j → j < i + n → (attempts j).isOk = false) →
      getJsonGo attempts i n backoff slept =
        (none, slept + backoff * (2 ^ exnCountFrom attempts i n - 1)) := by
  intro n
  induction n with
  | zero =>
    intro i backoff slept _
    simp [getJsonGo, exnCountFrom]
  | succ m ih =>
    intro i backoff slept hfail
    have hi : (attempts i).isOk = false := hfail i le_rfl (by omega)
    cases hatt : attempts i with
    | ok p => rw [hatt] at hi; simp [AttemptOutcome.isOk] at hi
    | badStatus =>
      have hrest : ∀ j, i + 1 ≤ j → j < (i + 1) + m → (attempts j).isOk = false := by
        intro j h1 h2; exact hfail j (by omega) (by omega)
      simp only [getJsonGo, hatt]
      rw [ih (i + 1) backoff slept hrest]
      simp [exnCountFrom, hatt]
    | exn =>
      have hrest : ∀ j, i + 1 ≤ j → j < (i + 1) + m → (attempts j).isOk = false := by
        intro j h1 h2; exact hfail j (by omega) (by omega)
      simp only [getJsonGo, hatt]
      rw [ih (i + 1) (backoff * 2) (slept + backoff) hrest]
      simp only [exnCountFrom, hatt, eq_self_iff_true, if_true, Prod.mk.injEq, true_and]
      rw [pow_add]
      ring

lemma flatten_streamBytesOf (raw : List (List Nat)) :
    (streamBytesOf raw).flatten = raw.flatten := by
  induction raw with
  | nil => rfl
  | cons c r ih =>
    by_cases hc : c.isEmpty
    · have hce : c = [] := by simpa [List.isEmpty_iff] using hc
      simp [streamBytesOf, List.filter_cons, hc, hce] at ih ⊢
      exact ih
    · simp [streamBytesOf, List.filter_cons, hc] at ih ⊢
      exact ih

lemma streamBytesOf_mem_ne_nil (raw : List (List Nat)) :
    ∀ c ∈ streamBytesOf raw, c ≠ [] := by
  intro c hc
  have := List.of_mem_filter hc
  simpa [List.isEmpty_iff] using this

/-- The `tail_newline` flag after folding `chunks` starting from `tl`. -/
def tailFlag : List (List Nat) → Bool → Bool
  | [], tl => tl
  | c :: r, _ => tailFlag r (endsWithNl c)

lemma csvLoop_complete (maxBytes : Nat) :
    ∀ (chunks : List (List Nat)) (br ln : Nat) (tl : Bool),
      br + (chunks.map List.length).sum ≤ maxBytes →
      csvLoop maxBytes chunks br ln tl =
        some (br + (chunks.map List.length).sum,
              ln + (chunks.map newlineCount).sum, tailFlag chunks tl) := by
  intro chunks
  induction chunks with
  | nil => intro br ln tl _; simp [csvLoop, tailFlag]
  | cons c rest ih =>
    intro br ln tl hle
    simp only [List.map_cons, List.sum_cons] at hle
    have hnot : ¬ maxBytes < br + c.length := by omega
    simp only [csvLoop, if_neg hnot]
    rw [ih (br + c.length) (ln + newlineCount c) (endsWithNl c) (by omega)]
    simp only [List.map_cons, List.sum_cons, tailFlag, Option.some.injEq, Prod.mk.injEq]
    exact ⟨by omega, by omega, trivial⟩

lemma csvLoop_none_of_over (maxBytes : Nat) :
    ∀ (chunks : List (List Nat)) (br ln : Nat) (tl : Bool),
      br ≤ maxBytes → maxBytes < br + (chunks.map List.length).sum →
      csvLoop maxBytes chunks br ln tl = none := by
  intro chunks
  induction chunks with
  | nil => intro br ln tl h1 h2; simp at h2; omega
  | cons c rest ih =>
    intro br ln tl h1 h2
    simp only [List.map_cons, List.sum_cons] at h2
    by_cases hover : maxBytes < br + c.length
    · simp [csvLoop, hover]
    · simp only [csvLoop, if_neg hover]
      exact ih (br + c.length) _ _ (by omega) (by omega)

lemma tailFlag_eq_endsWithNl :
    ∀ (chunks : List (List Nat)), chunks ≠ [] → (∀ c ∈ chunks, c ≠ []) →
      ∀ tl, tailFlag chunks tl = endsWithNl chunks.flatten := by
  intro chunks
  induction chunks with
  | nil => intro h; exact absurd rfl h
  | cons c rest ih =>
    intro _ hne tl
    cases rest with
    | nil => simp [tailFlag, endsWithNl]
    | cons d r =>
      have hflat_ne : (d :: r).flatten ≠ [] := by
        have hd : d ≠ [] := hne d (by simp)
        simp only [List.flatten_cons]
        intro h
        exact hd (List.append_eq_nil.mp h).1
      rw [show tailFlag (c :: d :: r) tl = tailFlag (d :: r) (endsWithNl c) from rfl]
      rw [ih (by simp) (fun x hx => hne x (by simp [hx])) (endsWithNl c)]
      simp only [List.flatten_cons (l := c)]
      unfold endsWithNl
      rw [List.getLast?_append_of_ne_nil _ hflat_ne]

lemma flatten_eq_nil_of_all_ne (chunks : List (List Nat))
    (hne : ∀ c ∈ chunks, c ≠ []) (h : chunks.flatten = []) : chunks = [] := by
  cases chunks with
  | nil => rfl
  | cons c r =>
    simp only [List.flatten_cons] at h
    exact absurd (List.append_eq_nil.mp h).1 (hne c (by simp))

lemma pyMax_foldl_mem : ∀ (t : List Int) (h : Int), t.foldl max h ∈ h :: t := by
  intro t
  induction t with
  | nil => intro h; simp
  | cons c r ih =>
    intro h
    rw [List.foldl_cons]
    rcases List.mem_cons.mp (ih (max h c)) with heq | hmem
    · rw [heq]
      rcases max_choice h c with hc | hc <;> rw [hc]
      · exact List.mem_cons_self _ _
      · exact List.mem_cons_of_mem _ (List.mem_cons_self _ _)
    · exact List.mem_cons_of_mem _ (List.mem_cons_of_mem _ hmem)

lemma le_pyMax_foldl : ∀ (t : List Int) (h c : Int), c ∈ h :: t → c ≤ t.foldl max h := by
  intro t
  induction t with
  | nil => intro h c hc; simp at hc; simp [hc]
  | cons d r ih =>
    intro h c hc
    have hhead : max h d ≤ r.foldl max (max h d) :=
      ih (max h d) (max h d) (List.mem_cons_self _ _)
    rw [List.foldl_cons]
    rcases List.mem_cons.mp hc with rfl | hc'
    · exact le_trans (le_max_left _ _) hhead
    · rcases List.mem_cons.mp hc' with rfl | hc''
      · exact le_trans (le_max_right _ _) hhead
      · exact ih (max h d) c (List.mem_cons_of_mem _ hc'')

/-! ## Claim theorems -/

/-- C4: for every delimited-text body within the byte cap (HEAD, when
known, also within the cap), `count_rows` returns the number of newline
bytes in the body, plus one if the body is non-empty and does not end in
a newline; an empty body yields 0. -/
theorem csv_count_rows_newline_semantics (maxBytes : Nat) (url : String)
    (headCl : Option Nat) (raw : List (List Nat))
    (hurl : is_csv_url url = true)
    (hhead : ∀ cl, headCl = some cl → cl ≤ maxBytes)
    (hlen : raw.flatten.length ≤ maxBytes) :
    (csvCountRows maxBytes url headCl (some raw)).1 =
      some (newlineCount raw.flatten +
        (if raw.flatten ≠ [] ∧ endsWithNl raw.flatten = false then 1 else 0)) := by
  have hstream : (streamBytesOf raw).flatten = raw.flatten := flatten_streamBytesOf raw
  have hsum : ((streamBytesOf raw).map List.length).sum = raw.flatten.length := by
    rw [← hstream]; exact (List.length_flatten _).symm
  have hnl : ((streamBytesOf raw).map newlineCount).sum = newlineCount raw.flatten := by
    rw [← hstream]; unfold newlineCount; exact (List.countP_flatten _ _).symm
  have hloop := csvLoop_complete maxBytes (streamBytesOf raw) 0 0 true
    (by rw [Nat.zero_add, hsum]; exact hlen)
  have key : ∀ reqs : List CsvReq,
      ((match csvLoop maxBytes (streamBytesOf raw) 0 0 true with
        | none => ((none : Option Nat), reqs)
        | some (br, ln, tl) =>
          (some (if 0 < br ∧ tl = false then ln + 1 else ln), reqs)).1 : Option Nat) =
      some (newlineCount raw.flatten +
        (if raw.flatten ≠ [] ∧ endsWithNl raw.flatten = false then 1 else 0)) := by
    intro reqs
    rw [hloop]
    dsimp only
    by_cases hbody : raw.flatten = []
    · have hchunks : streamBytesOf raw = [] :=
        flatten_eq_nil_of_all_ne _ (streamBytesOf_mem_ne_nil raw) (hstream.trans hbody)
      simp [hchunks, hbody, newlineCount]
    · have hchunks_ne : streamBytesOf raw ≠ [] := by
        intro h; exact hbody (by rw [← hstream, h]; rfl)
      have htail : tailFlag (streamBytesOf raw) true = endsWithNl raw.flatten := by
        rw [tailFlag_eq_endsWithNl _ hchunks_ne (streamBytesOf_mem_ne_nil raw) true, hstream]
      have hpos : 0 < raw.flatten.length := List.length_pos.mpr hbody
      rw [Nat.zero_add, Nat.zero_add, hsum, hnl, htail]
      by_cases hend : endsWithNl raw.flatten = false
      · rw [if_pos ⟨hpos, hend⟩, if_pos ⟨hbody, hend⟩]
      · rw [if_neg (by tauto), if_neg (by tauto), Nat.add_zero]
  rcases headCl with _ | cl
  · unfold csvCountRows
    rw [hurl]
    simp only [Bool.not_true, Bool.false_eq_true, if_false]
    exact key _
  · have hng : (decide (maxBytes < cl)) = false := by
      have := hhead cl rfl; simp; omega
    unfold csvCountRows
    rw [hurl]
    simp only [Bool.not_true, Bool.false_eq_true, if_false, hng]
    exact key _

/-- Witness for C4 at the spec's three examples: the bodies
`"a,b\nc,d\n"`, `"a,b\nc,d"` and `""`. -/
theorem csv_count_rows_newline_semantics_witness :
    (csvCountRows 15000000 "data.csv" none (some [[97, 44, 98, 10, 99, 44, 100, 10]])).1 =
      some 2 ∧
    (csvCountRows 15000000 "data.csv" none (some [[97, 44, 98, 10, 99, 44, 100]])).1 =
      some 2 ∧
    (csvCountRows 15000000 "data.csv" none (some [])).1 = some 0 := by
  refine ⟨?_, by decide, by decide⟩
  have h := csv_count_rows_newline_semantics 15000000 "data.csv" none
    [[97, 44, 98, 10, 99, 44, 100, 10]] (by decide) (fun cl hcl => by cases hcl) (by decide)
  rw [h]; decide

/-- C5: for all byte caps and bodies longer than the cap, the
delimited-text counter returns uncountable, never a partial count. -/
theorem csv_count_rows_over_cap_none (maxBytes : Nat) (url : String)
    (headCl : Option Nat) (raw : List (List Nat))
    (hlen : maxBytes < raw.flatten.length) :
    (csvCountRows maxBytes url headCl (some raw)).1 = none := by
  unfold csvCountRows
  by_cases hurl : is_csv_url url
  · rw [hurl]
    simp only [Bool.not_true, Bool.false_eq_true, if_false]
    cases hclv : headCl with
    | some cl =>
      by_cases hg : maxBytes < cl
      · simp [hg]
      · simp only [hg, decide_eq_true_eq, if_neg, decide_eq_false_iff_not,
          not_false_iff, Bool.false_eq_true, if_false]
        rw [csvLoop_none_of_over maxBytes (streamBytesOf raw) 0 0 true (Nat.zero_le _)
          (by
            have hs : ((streamBytesOf raw).map List.length).sum = raw.flatten.length := by
              rw [← flatten_streamBytesOf raw]; exact (List.length_flatten _).symm
            omega)]
    | none =>
      simp only [Bool.false_eq_true, if_false]
      rw [csvLoop_none_of_over maxBytes (streamBytesOf raw) 0 0 true (Nat.zero_le _)
        (by
          have hs : ((streamBytesOf raw).map List.length).sum = raw.flatten.length := by
            rw [← flatten_streamBytesOf raw]; exact (List.length_flatten _).symm
          omega)]
  · simp [Bool.not_eq_true] at hurl
    rw [hurl]
    simp

/-- Witness for C5: cap 4, body of length 5, split over two chunks. -/
theorem csv_count_rows_over_cap_none_witness :
    4 < ([[1, 2, 3], [4, 5]] : List (List Nat)).flatten.length ∧
    (csvCountRows 4 "x.csv" none (some [[1, 2, 3], [4, 5]])).1 = none :=
  ⟨by decide, csv_count_rows_over_cap_none 4 "x.csv" none [[1, 2, 3], [4, 5]] (by decide)⟩

/-- C7: the bounded downloader never returns a file whose size exceeds
its byte cap. -/
theorem download_never_exceeds_cap (maxBytes : Nat) (resp : Option (List (List Nat)))
    (content : List Nat) (h : download_to_tempfile maxBytes resp = some content) :
    content.length ≤ maxBytes := by
  cases resp with
  | none => simp [download_to_tempfile] at h
  | some chunks =>
    exact downloadLoop_length_le maxBytes chunks 0 [] content rfl (Nat.zero_le _) h

/-- Witness for C7: a two-chunk body of 5 bytes under a cap of 10. -/
theorem download_never_exceeds_cap_witness :
    download_to_tempfile 10 (some [[1, 2, 3], [4, 5]]) = some [1, 2, 3, 4, 5] ∧
    ([1, 2, 3, 4, 5] : List Nat).length ≤ 10 :=
  ⟨by decide,
   download_never_exceeds_cap 10 (some [[1, 2, 3], [4, 5]]) [1, 2, 3, 4, 5] (by decide)⟩

/-- C8 counterexample: three non-200 responses exhaust the default three
attempts, yet the total backoff slept is 0, not the claimed exponential
sequence 0.5 + 1.0 + 2.0 — the code sleeps (and doubles the backoff)
only after an exception, not after a non-200 status. -/
theorem retry_backoff_counterexample :
    get_json defaultRetries (fun _ => AttemptOutcome.badStatus) = (none, 0) ∧
    ¬ ((1 / 2 + 1 + 2 : ℚ) ≤
        (get_json defaultRetries (fun _ => AttemptOutcome.badStatus)).2) := by
  constructor
  · rfl
  · have h0 : (get_json defaultRetries (fun _ => AttemptOutcome.badStatus)).2 = 0 := rfl
    rw [h0]; norm_num

/-- C8 (amended): any network exception or non-200 status counts as a
failure and is retried, up to the configured number of attempts; the
exponential backoff (0.5, doubling) is slept only after exception
failures, while a non-200 response is retried without sleeping; after
exhausting all attempts the call returns an explicit `none`. -/
theorem retry_exhaustion_amended (retries : Nat) (attempts : Nat → AttemptOutcome)
    (hfail : ∀ j < retries, (attempts j).isOk = false) :
    get_json retries attempts =
      (none, 1 / 2 * (2 ^ exnCountFrom attempts 0 retries - 1)) := by
  unfold get_json
  rw [getJsonGo_all_fail attempts retries 0 (1 / 2) 0
    (fun j _ h2 => hfail j (by omega))]
  norm_num

/-- Witness for the amended C8: one exception then two non-200 statuses
exhaust the three attempts; total sleep is the single backoff 0.5. -/
theorem retry_exhaustion_amended_witness :
    get_json 3 (fun i => if i = 0 then AttemptOutcome.exn else AttemptOutcome.badStatus) =
      (none, 1 / 2) := by
  have h := retry_exhaustion_amended 3
    (fun i => if i = 0 then AttemptOutcome.exn else AttemptOutcome.badStatus) (by decide)
  rw [h]
  have hc : exnCountFrom
      (fun i => if i = 0 then AttemptOutcome.exn else AttemptOutcome.badStatus) 0 3 = 1 := rfl
  rw [hc]; norm_num

/-- C10: a URL whose lowercased form does not end in `.csv` — including
one whose path ends in `.csv` but carries a query suffix, since
`is_csv_url` does not strip query suffixes the way `is_xlsx_url` and
`is_zip_url` do — makes `count_rows` return uncountable without
performing any HTTP request. -/
theorem csv_counter_rejects_non_csv_urls (maxBytes : Nat) (headCl : Option Nat)
    (stream : Option (List (List Nat))) (url : String)
    (h : strEndsWith (strLower url.data) ".csv".data = false) :
    csvCountRows maxBytes url headCl stream = (none, []) ∧
    is_csv_url "http://e/table.csv?download=1" = false ∧
    is_xlsx_url "http://e/table.xlsx?download=1" none = true ∧
    is_zip_url "http://e/table.zip?download=1" none = true := by
  refine ⟨?_, by decide, by decide, by decide⟩
  have hcsv : is_csv_url url = false := by
    unfold is_csv_url
    rw [h, Bool.and_false]
  unfold csvCountRows
  rw [hcsv]
  simp

/-- Witness for C10: a `.csv` path with a query suffix is rejected with
no request performed. -/
theorem csv_counter_rejects_non_csv_urls_witness :
    (strEndsWith (strLower "http://e/table.csv?download=1".data) ".csv".data = false) ∧
    csvCountRows 100 "http://e/table.csv?download=1" (some 5) (some [[10]]) = (none, []) := by
  refine ⟨by decide, ?_⟩
  exact (csv_counter_rejects_non_csv_urls 100 (some 5) (some [[10]])
    "http://e/table.csv?download=1" (by decide)).1

/-! ## Concrete audit scenarios used by the witnesses -/

/-- The configuration of `main`: default threshold, all counters and the
large-resource reporter attached. -/
def exCfg : AuditConfig := ⟨536870912, true, true, true, true⟩

/-- Three server-indexed resources contributing 120, 450, 450 rows. -/
def exC1Env : AuditEnv :=
  { datastore := fun i =>
      if i = "r1" then some (120, 3)
      else if i = "r2" then some (450, 4)
      else if i = "r3" then some (450, 4)
      else none,
    head := fun _ => none, csv := fun _ => none,
    xlsx := fun _ _ => none, zip := fun _ _ => none }

/-- The dataset holding the three duplicated-publication resources. -/
def exC1Ds : DatasetInfo :=
  ⟨"d1", "t1",
   [⟨some "r1", none, true, none⟩, ⟨some "r2", none, true, none⟩,
    ⟨some "r3", none, true, none⟩]⟩

/-- A datastore answering for resource `r`, with all file counters ready
to return positive counts if (incorrectly) consulted. -/
def exC2Env : AuditEnv :=
  { datastore := fun i => if i = "r" then some (42, 5) else none,
    head := fun _ => some 1, csv := fun _ => some 7,
    xlsx := fun _ _ => some 8, zip := fun _ _ => some 9 }

/-- An empty dataset descriptor for per-resource witnesses. -/
def exC2Ds : DatasetInfo := ⟨"d2", "t2", []⟩

/-- A server-indexed resource that also carries a URL. -/
def exC2Res : ResourceInfo := ⟨some "r", some "http://e/a.csv", true, none⟩

/-- A HEAD probe reporting 600000000 bytes (above the 512 MiB default),
with all counters ready to answer if (incorrectly) consulted. -/
def exC3Env : AuditEnv :=
  { datastore := fun _ => none, head := fun _ => some 600000000,
    csv := fun _ => some 5, xlsx := fun _ _ => some 6, zip := fun _ _ => some 7 }

/-- Dataset descriptor for the large-resource scenario. -/
def exC3Ds : DatasetInfo := ⟨"d3", "t3", []⟩

/-- A non-server-indexed resource with a URL whose content length is
above the threshold. -/
def exC3Res : ResourceInfo := ⟨some "r3", some "http://e/big.csv", false, some "csv"⟩

/-- C1: the per-dataset `rows_total` is the maximum of the per-resource
contributing counts (it is one of them and bounds them all), and 0 when
no resource contributes. -/
theorem dataset_rows_total_is_max (cfg : AuditConfig) (env : AuditEnv) (ds : DatasetInfo) :
    ((auditParts cfg env ds).1 = [] → (audit_dataset cfg env ds).1.rows_total = 0) ∧
    ((auditParts cfg env ds).1 ≠ [] →
      (audit_dataset cfg env ds).1.rows_total ∈ (auditParts cfg env ds).1 ∧
      ∀ c ∈ (auditParts cfg env ds).1, c ≤ (audit_dataset cfg env ds).1.rows_total) := by
  have hrt : (audit_dataset cfg env ds).1.rows_total = pyMax (auditParts cfg env ds).1 := rfl
  constructor
  · intro h; rw [hrt, h]; rfl
  · intro h
    rw [hrt]
    cases hc : (auditParts cfg env ds).1 with
    | nil => exact absurd hc h
    | cons a t =>
      exact ⟨pyMax_foldl_mem t a, fun c hcmem => le_pyMax_foldl t a c hcmem⟩

/-- Witness for C1: contributions {120, 450, 450} aggregate to 450
(the maximum), not 1020 (the sum). -/
theorem dataset_rows_total_is_max_witness :
    (auditParts exCfg exC1Env exC1Ds).1 ≠ [] ∧
    (audit_dataset exCfg exC1Env exC1Ds).1.rows_total ∈ (auditParts exCfg exC1Env exC1Ds).1 ∧
    (audit_dataset exCfg exC1Env exC1Ds).1.rows_total = 450 :=
  ⟨by decide,
   ((dataset_rows_total_is_max exCfg exC1Env exC1Ds).2 (by decide)).1,
   by decide⟩

/-- C2: a server-indexed resource with a truthy identifier is handled
by the tabular-query endpoint alone — the trace is exactly one datastore
query, no large record is produced, and the contribution is the queried
row count on success and nothing on failure. -/
theorem server_indexed_only_datastore (cfg : AuditConfig) (env : AuditEnv)
    (ds : DatasetInfo) (res : ResourceInfo)
    (h1 : res.datastore_active = true) (h2 : optStrTruthy res.id = true) :
    (auditResource cfg env ds res).2.2 = [AuditAction.queryDatastore (res.id.getD "")] ∧
    (auditResource cfg env ds res).2.1 = [] ∧
    (auditResource cfg env ds res).1 =
      (match env.datastore (res.id.getD "") with
        | some rc => [rc.1]
        | none => []) := by
  unfold auditResource
  rw [h1, h2]
  simp only [Bool.and_self, if_true]
  cases hd : env.datastore (res.id.getD "") <;> simp

/-- Witness for C2: a server-indexed resource that also has a URL is
still routed only to the datastore, contributing its 42 rows. -/
theorem server_indexed_only_datastore_witness :
    (auditResource exCfg exC2Env exC2Ds exC2Res).2.2 = [AuditAction.queryDatastore "r"] ∧
    (auditResource exCfg exC2Env exC2Ds exC2Res).1 = [42] := by
  have h := server_indexed_only_datastore exCfg exC2Env exC2Ds exC2Res rfl (by decide)
  exact ⟨h.1, h.2.2.trans (by decide)⟩

/-- C3 counterexample: at a concrete above-threshold resource the
auditor emits its record with reason string `"content-length>=threshold"`,
not the claimed `"content-length at/above threshold"`. -/
theorem large_gate_reason_counterexample :
    (auditResource exCfg exC3Env exC3Ds exC3Res).2.1.map LargeResource.reason =
      ["content-length>=threshold"] ∧
    "content-length>=threshold" ≠ "content-length at/above threshold" :=
  ⟨by decide, by decide⟩

/-- C3 (amended): for a non-server-indexed resource with a URL whose
HEAD content length is known and at/above the threshold (default
536870912 bytes), the auditor emits exactly one `LargeResource` record —
with reason string `"content-length>=threshold"` — before attempting any
counter, and the resource contributes nothing. -/
theorem large_gate_amended (cfg : AuditConfig) (env : AuditEnv) (ds : DatasetInfo)
    (res : ResourceInfo) (n : Nat)
    (h1 : res.datastore_active = false) (h2 : optStrTruthy res.url = true)
    (h3 : env.head (res.url.getD "") = some n) (h4 : cfg.largeThreshold ≤ n)
    (h5 : cfg.hasLargeReporter = true) :
    defaultLargeThreshold = 536870912 ∧
    (auditResource cfg env ds res).2.1 =
      [{ dataset_id := ds.id, dataset_title := ds.title, resource_id := res.id,
         url := res.url, format := res.format, content_length := some n,
         reason := "content-length>=threshold" }] ∧
    (auditResource cfg env ds res).1 = [] ∧
    (auditResource cfg env ds res).2.2 = [AuditAction.headReq (res.url.getD "")] := by
  have hb : (res.datastore_active && optStrTruthy res.id) = false := by
    rw [h1]; rfl
  refine ⟨rfl, ?_, ?_, ?_⟩ <;>
    simp [auditResource, hb, h2, h3, h5, decide_eq_true h4]

/-- Witness for the amended C3 at a concrete 600000000-byte resource. -/
theorem large_gate_amended_witness :
    (auditResource exCfg exC3Env exC3Ds exC3Res).2.1 =
      [{ dataset_id := "d3", dataset_title := "t3", resource_id := some "r3",
         url := some "http://e/big.csv", format := some "csv",
         content_length := some 600000000,
         reason := "content-length>=threshold" }] ∧
    (auditResource exCfg exC3Env exC3Ds exC3Res).1 = [] ∧
    (auditResource exCfg exC3Env exC3Ds exC3Res).2.2 =
      [AuditAction.headReq "http://e/big.csv"] := by
  have h := large_gate_amended exCfg exC3Env exC3Ds exC3Res 600000000
    rfl (by decide) rfl (by decide) rfl
  exact ⟨h.2.1, h.2.2.1, h.2.2.2⟩

lemma zipFoldl_eq_sum (perMax : Nat) :
    ∀ (l : List ZipEntry) (acc : Nat),
      l.foldl (fun acc e =>
        match countCsvStream perMax e with
        | some c => if 0 < c then acc + c else acc
        | none => acc) acc =
      acc + (l.map (fun e => (countCsvStream perMax e).getD 0)).sum := by
  intro l
  induction l with
  | nil => intro acc; simp
  | cons e r ih =>
    intro acc
    cases hc : countCsvStream perMax e with
    | none => simp [hc, ih]
    | some c =>
      by_cases hpos : 0 < c
      · simp [hc, hpos, ih, Nat.add_assoc]
      · have hc0 : c = 0 := by omega
        subst hc0
        simp [hc, ih]

/-- C6: for an archive whose download succeeded, `count_rows` is the sum
of the per-entry counts over `.csv`-named entries (an entry over its
per-entry cap, or unreadable, contributing 0), and is uncountable when
no entry matches or the sum is zero. -/
theorem zip_count_rows_sums_positive_entries (perMax : Nat) (url : String)
    (fmt : Option String) (entries : List ZipEntry)
    (h : is_zip_url url fmt = true) :
    zipCountRows perMax url fmt (some entries) =
      (if (entries.filter (fun e => strEndsWith (strLower e.name.data) ".csv".data)) = [] ∨
          ((entries.filter (fun e => strEndsWith (strLower e.name.data) ".csv".data)).map
            (fun e => (countCsvStream perMax e).getD 0)).sum = 0
        then none
        else some (((entries.filter
            (fun e => strEndsWith (strLower e.name.data) ".csv".data)).map
              (fun e => (countCsvStream perMax e).getD 0)).sum)) := by
  unfold zipCountRows
  rw [h]
  simp only [Bool.not_true, Bool.false_eq_true, if_false]
  by_cases hne :
      entries.filter (fun e => strEndsWith (strLower e.name.data) ".csv".data) = []
  · rw [hne]
    simp
  · have hisEmpty :
        (entries.filter (fun e => strEndsWith (strLower e.name.data) ".csv".data)).isEmpty
          = false := by
      simp [List.isEmpty_iff, hne]
    rw [hisEmpty]
    simp only [Bool.false_eq_true, if_false]
    rw [zipFoldl_eq_sum, Nat.zero_add]
    by_cases hz :
        ((entries.filter (fun e => strEndsWith (strLower e.name.data) ".csv".data)).map
          (fun e => (countCsvStream perMax e).getD 0)).sum = 0
    · rw [hz]
      simp [hne, hz]
    · rw [if_pos (Nat.pos_of_ne_zero hz), if_neg (by tauto)]

/-- Witness for C6: entries of 3 and 5 rows under the per-entry cap sum
to 8; with the first entry over its cap only the other counts, giving 5. -/
theorem zip_count_rows_sums_positive_entries_witness :
    zipCountRows 10 "a.zip" none
      (some [⟨"a.csv", some [[120, 10, 121, 10, 122, 10]]⟩,
             ⟨"b.csv", some [[49, 10, 50, 10, 51, 10, 52, 10, 53, 10]]⟩]) = some 8 ∧
    zipCountRows 10 "a.zip" none
      (some [⟨"a.csv", some [[97, 97, 97, 97, 97, 97, 97, 97, 97, 97, 97, 10]]⟩,
             ⟨"b.csv", some [[49, 10, 50, 10, 51, 10, 52, 10, 53, 10]]⟩]) = some 5 := by
  constructor
  · exact (zip_count_rows_sums_positive_entries 10 "a.zip" none _ (by decide)).trans
      (by decide)
  · exact (zip_count_rows_sums_positive_entries 10 "a.zip" none _ (by decide)).trans
      (by decide)

lemma zipStage_counts_len (cfg : AuditConfig) (env : AuditEnv) (u : String)
    (fmt : Option String) : (zipStage cfg env u fmt).1.length ≤ 1 := by
  unfold zipStage
  cases h : cfg.hasZip
  · simp
  · simp only [if_true]
    cases hz : env.zip u fmt with
    | none => simp
    | some z =>
      by_cases hp : 0 < z
      · simp [hp]
      · simp [hp]

lemma xlsxStage_counts_len (cfg : AuditConfig) (env : AuditEnv) (u : String)
    (fmt : Option String) : (xlsxStage cfg env u fmt).1.length ≤ 1 := by
  unfold xlsxStage
  cases h : cfg.hasXlsx
  · simpa using zipStage_counts_len cfg env u fmt
  · simp only [if_true]
    cases hx : env.xlsx u fmt with
    | none => simpa using zipStage_counts_len cfg env u fmt
    | some x =>
      by_cases hp : 0 < x
      · simp [hp]
      · simpa [hp] using zipStage_counts_len cfg env u fmt

lemma fileFallback_counts_len (cfg : AuditConfig) (env : AuditEnv) (u : String)
    (fmt : Option String) : (fileFallback cfg env u fmt).1.length ≤ 1 := by
  unfold fileFallback
  cases h : cfg.hasCsv
  · simpa using xlsxStage_counts_len cfg env u fmt
  · simp only [if_true]
    cases hc : env.csv u with
    | none => simpa using xlsxStage_counts_len cfg env u fmt
    | some c =>
      by_cases hp : 0 < c
      · simp [hp]
      · simpa [hp] using xlsxStage_counts_len cfg env u fmt

lemma auditResource_counts_len (cfg : AuditConfig) (env : AuditEnv)
    (ds : DatasetInfo) (res : ResourceInfo) :
    (auditResource cfg env ds res).1.length ≤ 1 := by
  unfold auditResource
  cases hb : res.datastore_active && optStrTruthy res.id
  · simp only [Bool.false_eq_true, if_false]
    cases hu : optStrTruthy res.url
    · simp
    · simp only [if_true]
      split
      · simp
      · simpa using fileFallback_counts_len cfg env (res.url.getD "") res.format
  · simp only [if_true]
    cases hd : env.datastore (res.id.getD "") <;> simp

lemma fileFallback_spec (cfg : AuditConfig) (env : AuditEnv) (u : String)
    (fmt : Option String)
    (hc : cfg.hasCsv = true) (hx : cfg.hasXlsx = true) (hz : cfg.hasZip = true) :
    fileFallback cfg env u fmt =
      ((if posInt (env.csv u) then [(env.csv u).getD 0]
        else if posInt (env.xlsx u fmt) then [(env.xlsx u fmt).getD 0]
        else if posInt (env.zip u fmt) then [(env.zip u fmt).getD 0]
        else []),
       AuditAction.tryCsv u ::
        (if posInt (env.csv u) then []
         else AuditAction.tryXlsx u ::
           (if posInt (env.xlsx u fmt) then [] else [AuditAction.tryZip u]))) := by
  unfold fileFallback xlsxStage zipStage
  rw [hc, hx, hz]
  cases hcv : env.csv u with
  | some c =>
    by_cases hcp : 0 < c
    · simp [posInt, hcp]
    · cases hxv : env.xlsx u fmt with
      | some x =>
        by_cases hxp : 0 < x
        · simp [posInt, hcp, hxp]
        · cases hzv : env.zip u fmt with
          | some z =>
            by_cases hzp : 0 < z
            · simp [posInt, hcp, hxp, hzp]
            · simp [posInt, hcp, hxp, hzp]
          | none => simp [posInt, hcp, hxp]
      | none =>
        cases hzv : env.zip u fmt with
        | some z =>
          by_cases hzp : 0 < z
          · simp [posInt, hcp, hzp]
          · simp [posInt, hcp, hzp]
        | none => simp [posInt, hcp]
  | none =>
    cases hxv : env.xlsx u fmt with
    | some x =>
      by_cases hxp : 0 < x
      · simp [posInt, hxp]
      · cases hzv : env.zip u fmt with
        | some z =>
          by_cases hzp : 0 < z
          · simp [posInt, hxp, hzp]
          · simp [posInt, hxp, hzp]
        | none => simp [posInt, hxp]
    | none =>
      cases hzv : env.zip u fmt with
      | some z =>
        by_cases hzp : 0 < z
        · simp [posInt, hzp]
        · simp [posInt, hzp]
      | none => simp [posInt]

/-- C9: every resource contributes at most one row-count value; and for
a non-server-indexed, non-gated resource with a URL and all counters
configured, the counters are attempted in the fixed order csv → xlsx →
zip, the first strictly positive count is the resource's single
contribution, later counters are not attempted, and zero or uncountable
results fall through. -/
theorem counter_cascade_first_positive_wins (cfg : AuditConfig) (env : AuditEnv)
    (ds : DatasetInfo) (res : ResourceInfo) :
    (auditResource cfg env ds res).1.length ≤ 1 ∧
    ((res.datastore_active && optStrTruthy res.id) = false →
      optStrTruthy res.url = true →
      cfg.hasCsv = true → cfg.hasXlsx = true → cfg.hasZip = true →
      (∀ cl, env.head (res.url.getD "") = some cl → cl < cfg.largeThreshold) →
      (auditResource cfg env ds res).1 =
        (if posInt (env.csv (res.url.getD "")) then [(env.csv (res.url.getD "")).getD 0]
         else if posInt (env.xlsx (res.url.getD "") res.format) then
           [(env.xlsx (res.url.getD "") res.format).getD 0]
         else if posInt (env.zip (res.url.getD "") res.format) then
           [(env.zip (res.url.getD "") res.format).getD 0]
         else []) ∧
      (auditResource cfg env ds res).2.2 =
        AuditAction.headReq (res.url.getD "") ::
        AuditAction.tryCsv (res.url.getD "") ::
        (if posInt (env.csv (res.url.getD "")) then []
         else AuditAction.tryXlsx (res.url.getD "") ::
           (if posInt (env.xlsx (res.url.getD "") res.format) then []
            else [AuditAction.tryZip (res.url.getD "")]))) := by
  refine ⟨auditResource_counts_len cfg env ds res, ?_⟩
  intro hb hu hc hx hz hhead
  have hgate :
      (match env.head (res.url.getD "") with
        | some cl => decide (cfg.largeThreshold ≤ cl)
        | none => false) = false := by
    cases hcl : env.head (res.url.getD "") with
    | none => rfl
    | some cl =>
      have := hhead cl hcl
      simp only [decide_eq_false_iff_not]
      omega
  have hff := fileFallback_spec cfg env (res.url.getD "") res.format hc hx hz
  unfold auditResource
  rw [hb]
  simp only [Bool.false_eq_true, if_false, hu, if_true, hgate, hff]
  exact ⟨trivial, trivial⟩

/-- Fall-through scenario for the C9 witness: csv counts 0, xlsx counts
5 (which wins), zip would count 9 but is never attempted. -/
def exC9Env : AuditEnv :=
  { datastore := fun _ => none, head := fun _ => some 100,
    csv := fun _ => some 0, xlsx := fun _ _ => some 5, zip := fun _ _ => some 9 }

/-- Dataset descriptor for the cascade scenario. -/
def exC9Ds : DatasetInfo := ⟨"d9", "t9", []⟩

/-- A non-server-indexed resource with a URL, below the threshold. -/
def exC9Res : ResourceInfo := ⟨some "r9", some "http://e/a.xlsx", false, none⟩

/-- Witness for C9: the zero csv count falls through, the positive xlsx
count wins and the zip counter is not attempted. -/
theorem counter_cascade_first_positive_wins_witness :
    (auditResource exCfg exC9Env exC9Ds exC9Res).1 = [5] ∧
    (auditResource exCfg exC9Env exC9Ds exC9Res).2.2 =
      [AuditAction.headReq "http://e/a.xlsx", AuditAction.tryCsv "http://e/a.xlsx",
       AuditAction.tryXlsx "http://e/a.xlsx"] := by
  have h := (counter_cascade_first_positive_wins exCfg exC9Env exC9Ds exC9Res).2
    rfl (by decide) rfl rfl rfl (fun cl hcl => by injection hcl with h'; rw [← h']; decide)
  exact ⟨h.1.trans (by decide), h.2.trans (by decide)⟩

end Audit
